import Mathlib

/-!
Verification of the ghafuse virtual-filesystem synthesis engine.

This file gives a shallow embedding of the two source files of the
repository (src/github.rs and src/main.rs) and proves or refutes the
frozen claims about it.

Modelling conventions:
- Rust u32/u64 fields hold small remote identifiers; they are modelled as
  Nat (the only wrapping cast in the relevant code paths is the
  i64-to-usize cast of a read/readdir offset, modelled explicitly by
  i64ToUsize).
- Rust HashMap is modelled as an association list with unique keys built
  by alInsert (insert replaces an existing key in place, a fresh key is
  appended at the end).  Iteration order of a HashMap is arbitrary; the
  model fixes catalog/insertion order.  No claim verdict below depends on
  the particular iteration order: the facts proved about listings are
  either order-robust (position of the dot entries at the end, no
  duplicates, no omissions, suffix paging) or are refuted by order-robust
  counterexamples.
- A Rust panic (slice out of range, expect, unimplemented) is modelled by
  an explicit panic-like constructor of the reply type.
-/

/-- Kind of a filesystem node, from the fuse crate's FileType (only the two
constructors the program uses are modelled). -/
inductive FileType where
  | Directory
  | RegularFile
deriving DecidableEq

/-- File attributes, from fuse::FileAttr; the four timestamp fields are all
set to UNIX_EPOCH by the program and are modelled as the constant 0. -/
structure FileAttr where
  ino : Nat
  size : Nat
  blocks : Nat
  atime : Nat
  mtime : Nat
  ctime : Nat
  crtime : Nat
  kind : FileType
  perm : Nat
  nlink : Nat
  uid : Nat
  gid : Nat
  rdev : Nat
  flags : Nat
deriving DecidableEq

/-- The errno value the program replies with, libc::ENOENT. -/
def ENOENT : Int := 2

/-- Content constant HELLO_TXT_CONTENT from main.rs. -/
def HELLO_TXT_CONTENT : String := "HelloWorld"

/-- Fixed root attributes HELLO_DIR_ATTR from main.rs. -/
def HELLO_DIR_ATTR : FileAttr :=
  { ino := 1, size := 0, blocks := 0, atime := 0, mtime := 0, ctime := 0,
    crtime := 0, kind := FileType.Directory, perm := 0o755, nlink := 2,
    uid := 501, gid := 20, rdev := 0, flags := 0 }

/-- Directory attributes for a given inode, create_dir_attr in main.rs
(rdev is the u32 truncation of the inode). -/
def create_dir_attr (ino : Nat) : FileAttr :=
  { ino := ino, size := 0, blocks := 1, atime := 0, mtime := 0, ctime := 0,
    crtime := 0, kind := FileType.Directory, perm := 0o755, nlink := 2,
    uid := 501, gid := 20, rdev := ino % 4294967296, flags := 0 }

/-- Regular-file attributes for a given inode, create_file_attr in main.rs
(declared size is the constant 13). -/
def create_file_attr (ino : Nat) : FileAttr :=
  { ino := ino, size := 13, blocks := 1, atime := 0, mtime := 0, ctime := 0,
    crtime := 0, kind := FileType.RegularFile, perm := 0o644, nlink := 1,
    uid := 501, gid := 20, rdev := ino % 4294967296, flags := 0 }

/-- Remote asset record, github.rs struct Asset (id is a u32). -/
structure Asset where
  url : String
  id : Nat
  name : String
  content_type : String
  size : Nat
  browser_download_url : String
deriving DecidableEq

/-- Remote release record, github.rs struct Release (id is a u32; the two
timestamp fields are opaque to the program and modelled as Nat ticks). -/
structure Release where
  url : String
  id : Nat
  tag_name : String
  created_at : Nat
  published_at : Nat
  assets : List Asset
deriving DecidableEq

/-- Association-list insert modelling HashMap insertion: replaces the value
of an existing key in place, appends a fresh key at the end. -/
def alInsert {α : Type} (k : String) (v : α) : List (String × α) → List (String × α)
  | [] => [(k, v)]
  | p :: rest => if p.1 = k then (k, v) :: rest else p :: alInsert k v rest

/-- Association-list get modelling HashMap::get (keys are unique by
construction, so the first match is the entry). -/
def alGet {α : Type} (m : List (String × α)) (k : String) : Option α :=
  (m.find? (fun p => p.1 = k)).map Prod.snd

/-- Pair of a filesystem inode and a directory-listing offset, struct
IdOffset in main.rs. -/
structure IdOffset where
  id : Nat
  offset : Int
deriving DecidableEq

/-- Per-release mapping, struct ReleaseMapping in main.rs: the release's own
IdOffset plus the asset-name map of the release. -/
structure ReleaseMapping where
  id_offset : IdOffset
  asset_mappings : List (String × IdOffset)
deriving DecidableEq

/-- The whole tree, type ReleaseMappings in main.rs: tag name to
ReleaseMapping. -/
abbrev ReleaseMappings : Type := List (String × ReleaseMapping)

/-- Inner loop of generate_release_mappings: walks the assets of one
release in order, incrementing the shared counter before each asset, and
collects (asset name, IdOffset (asset.id + 1) counter) into the map. -/
def genAssetMappingsAux : List Asset → Int → List (String × IdOffset) →
    List (String × IdOffset) × Int
  | [], off, acc => (acc, off)
  | a :: rest, off, acc =>
      genAssetMappingsAux rest (off + 1)
        (alInsert a.name (IdOffset.mk (a.id + 1) (off + 1)) acc)

/-- Outer loop of generate_release_mappings: for each release, builds its
asset map, increments the counter once more, and collects
(tag name, ReleaseMapping (IdOffset (release.id + 1) counter) assetMap). -/
def genReleaseMappingsAux : List Release → Int → ReleaseMappings → ReleaseMappings
  | [], _, acc => acc
  | r :: rest, off, acc =>
      genReleaseMappingsAux rest ((genAssetMappingsAux r.assets off []).2 + 1)
        (alInsert r.tag_name
          (ReleaseMapping.mk
            (IdOffset.mk (r.id + 1) ((genAssetMappingsAux r.assets off []).2 + 1))
            (genAssetMappingsAux r.assets off []).1) acc)

/-- generate_release_mappings from main.rs: the counter starts at 0. -/
def generate_release_mappings (releases : List Release) : ReleaseMappings :=
  genReleaseMappingsAux releases 0 []

/-- find_release_mapping from main.rs: first mapping whose id equals the
requested id. -/
def find_release_mapping (release_mappings : ReleaseMappings) (id : Nat) :
    Option ReleaseMapping :=
  (release_mappings.map Prod.snd).find? (fun rm => rm.id_offset.id = id)

/-- Reply of the lookup handler: a fuse ReplyEntry either carries attributes
or an errno. -/
inductive LookupReply where
  | entry : FileAttr → LookupReply
  | error : Int → LookupReply
deriving DecidableEq

/-- GhaFs::lookup from main.rs.  For parent 1 the tag map is consulted by
name and a directory entry with the release's id is returned; for any other
parent the release mapping with that id is searched and, when found, a
regular-file entry carrying that release's own id is returned — the name
argument is not consulted at all on that branch. -/
def GhaFs.lookup (release_mappings : ReleaseMappings) (parent : Nat) (name : String) :
    LookupReply :=
  if parent = 1 then
    match alGet release_mappings name with
    | some rm => LookupReply.entry (create_dir_attr rm.id_offset.id)
    | none => LookupReply.error ENOENT
  else
    match find_release_mapping release_mappings parent with
    | some rm => LookupReply.entry (create_file_attr rm.id_offset.id)
    | none => LookupReply.error ENOENT

/-- Rust i64-to-usize cast (two's-complement reinterpretation on a 64-bit
platform): 18446744073709551616 is 2 to the 64. -/
def i64ToUsize (i : Int) : Nat := (i % 18446744073709551616).toNat

/-- Reply of the read handler: data, an errno, or a panic (the byte-slice
indexing in the handler panics when the start index exceeds the length). -/
inductive ReadReply where
  | data : List Char → ReadReply
  | error : Int → ReadReply
  | panic : ReadReply
deriving DecidableEq

/-- Placeholder content for an inode, format HelloWorld-{ino} newline from
GhaFs::read (ASCII, so characters coincide with bytes). -/
def readContent (ino : Nat) : String :=
  HELLO_TXT_CONTENT ++ "-" ++ toString ino ++ "\n"

/-- GhaFs::read from main.rs: any inode other than 1 is served the
placeholder content sliced from the offset (cast to usize) to the end;
a start index beyond the content length panics, exactly as the Rust slice
expression does; inode 1 gets ENOENT. -/
def GhaFs.read (ino : Nat) (offset : Int) : ReadReply :=
  if ino ≠ 1 then
    let content := (readContent ino).data
    let idx := i64ToUsize offset
    if idx ≤ content.length then ReadReply.data (content.drop idx)
    else ReadReply.panic
  else ReadReply.error ENOENT

/-- Reply of the getattr handler. -/
inductive AttrReply where
  | attr : FileAttr → AttrReply
  | error : Int → AttrReply
deriving DecidableEq

/-- GhaFs::getattr from main.rs: inode 1 gets the fixed directory
attributes, every other inode — known or not — gets regular-file
attributes; the release mappings are never consulted and no error reply
exists in the handler. -/
def GhaFs.getattr (ino : Nat) : AttrReply :=
  if ino = 1 then AttrReply.attr HELLO_DIR_ATTR
  else AttrReply.attr (create_file_attr ino)

/-- One directory entry as passed to ReplyDirectory::add. -/
abbrev DirEntry : Type := IdOffset × FileType × String

/-- Full entry list the readdir handler builds before applying the offset:
for inode 1, the tag entries then dot then dotdot (both with id 1); for a
known release id, its asset entries then dot (own id, release offset) then
dotdot (id 1); for anything else, the empty list. -/
def GhaFs.readdirEntries (release_mappings : ReleaseMappings) (ino : Nat) :
    List DirEntry :=
  if ino = 1 then
    (release_mappings.map
        (fun p => ((p.2.id_offset, FileType.Directory, p.1) : DirEntry)))
      ++ [(IdOffset.mk 1 1, FileType.Directory, "."),
          (IdOffset.mk 1 1, FileType.Directory, "..")]
  else
    match find_release_mapping release_mappings ino with
    | some rm =>
        (rm.asset_mappings.map
            (fun p => ((p.2, FileType.RegularFile, p.1) : DirEntry)))
          ++ [(IdOffset.mk ino rm.id_offset.offset, FileType.Directory, "."),
              (IdOffset.mk 1 1, FileType.Directory, "..")]
    | none => []

/-- Reply of the readdir handler: a sequence of delivered entries followed
by ok, or an errno. -/
inductive ReaddirReply where
  | ok : List DirEntry → ReaddirReply
  | error : Int → ReaddirReply
deriving DecidableEq

/-- GhaFs::readdir from main.rs: skips offset-as-usize entries of the full
list and replies ok unconditionally (the handler contains no error reply;
an unknown inode therefore yields an empty successful listing). -/
def GhaFs.readdir (release_mappings : ReleaseMappings) (ino : Nat) (offset : Int) :
    ReaddirReply :=
  ReaddirReply.ok ((GhaFs.readdirEntries release_mappings ino).drop (i64ToUsize offset))

/-- One conditional-cache record, github.rs struct EtagCache: the validator
string and the last decoded body (the serde_json Value is modelled as an
opaque string). -/
structure EtagCache where
  hash : String
  content : String
deriving DecidableEq

/-- The mutable part of github.rs struct GitHub relevant to fetching: the
per-endpoint validator cache (credentials and the HTTP client only shape
the outgoing request, not the caching logic). -/
structure GitHubState where
  etags : List (String × EtagCache)
deriving DecidableEq

/-- Status of the HTTP response as discriminated by GitHub::cached_get. -/
inductive StatusCode where
  | ok
  | notModified
  | other
deriving DecidableEq

/-- The response the transport hands back: its status, the decoded JSON
body when decoding succeeds (none models a body whose JSON decoding
panics), and the optional ETag header. -/
structure Response where
  status : StatusCode
  body : Option String
  etag : Option String
deriving DecidableEq

/-- Result of GitHub::cached_get: the Ok content, or a panic (the code uses
expect for JSON decoding failures and unimplemented for a 304 without a
cache entry and for every other status). -/
inductive FetchResult where
  | ok : String → FetchResult
  | panic : FetchResult
deriving DecidableEq

/-- GitHub::cached_get from github.rs, as a pure function of the cache
state and the response the transport returns: on 200 the body is decoded
and, only when an ETag header is present, (validator, body) is stored under
the endpoint, replacing any prior entry; on 304 the cached body is
returned and the cache is untouched (no entry means unimplemented, a
panic); every other status panics.  The request-building half (credentials,
If-None-Match injection) does not touch the cache. -/
def cached_get (st : GitHubState) (endpoint : String) (rsp : Response) :
    FetchResult × GitHubState :=
  match rsp.status with
  | StatusCode.ok =>
      match rsp.body with
      | none => (FetchResult.panic, st)
      | some content =>
          match rsp.etag with
          | some hash =>
              (FetchResult.ok content,
               GitHubState.mk
                 (alInsert endpoint (EtagCache.mk hash content) st.etags))
          | none => (FetchResult.ok content, st)
  | StatusCode.notModified =>
      match alGet st.etags endpoint with
      | some cache => (FetchResult.ok cache.content, st)
      | none => (FetchResult.panic, st)
  | StatusCode.other => (FetchResult.panic, st)

/-! Sample catalogs used as concrete inputs by the counterexamples,
code-bug evaluations and witnesses below.  Each one is a small but fully
populated list of Release records. -/

/-- Sample asset with remote id 4 and name app.bin. -/
def sampleAsset4 : Asset :=
  { url := "u", id := 4, name := "app.bin", content_type := "application/octet-stream",
    size := 10, browser_download_url := "d" }

/-- Sample asset with remote id 9 and name app.sig. -/
def sampleAsset9 : Asset :=
  { url := "u", id := 9, name := "app.sig", content_type := "application/octet-stream",
    size := 5, browser_download_url := "d" }

/-- Sample one-release catalog: release remote id 9 (filesystem id 10),
tag v1.0, one asset of remote id 4 (filesystem id 5). -/
def sampleCatalog : List Release :=
  [{ url := "r", id := 9, tag_name := "v1.0", created_at := 0,
     published_at := 0, assets := [sampleAsset4] }]

/-- The release mappings built from sampleCatalog. -/
def sampleMappings : ReleaseMappings := generate_release_mappings sampleCatalog

/-- Catalog whose single release carries remote id 5 and one asset also of
remote id 5: both nodes receive filesystem id 6. -/
def collidingCatalog : List Release :=
  [{ url := "r", id := 5, tag_name := "v2.0", created_at := 0,
     published_at := 0, assets :=
       [{ url := "u", id := 5, name := "x.bin", content_type := "ct",
          size := 3, browser_download_url := "d" }] }]

/-- Catalog with two releases and distinct positive remote ids throughout,
used to witness the amended injectivity statement. -/
def disjointCatalog : List Release :=
  [{ url := "r", id := 3, tag_name := "v1.0", created_at := 0,
     published_at := 0, assets := [sampleAsset4] },
   { url := "r", id := 7, tag_name := "v2.0", created_at := 0,
     published_at := 0, assets := [sampleAsset9] }]

/-- Catalog whose asset receives filesystem id 10 (remote id 9), so its
placeholder content is 14 bytes against the declared size 13. -/
def wideIdCatalog : List Release :=
  [{ url := "r", id := 20, tag_name := "v3.0", created_at := 0,
     published_at := 0, assets :=
       [{ url := "u", id := 9, name := "big.bin", content_type := "ct",
          size := 1, browser_download_url := "d" }] }]

/-- The release mappings built from wideIdCatalog. -/
def wideIdMappings : ReleaseMappings := generate_release_mappings wideIdCatalog

/-- The release mapping sampleCatalog produces for tag v1.0. -/
def sampleRM : ReleaseMapping :=
  ReleaseMapping.mk (IdOffset.mk 10 2) [("app.bin", IdOffset.mk 5 1)]

/-! Normal form of the tree builder under unique names.  When no tag name
repeats and no asset name repeats within its release, every HashMap insert
hits a fresh key, and the maps the builder produces are exactly the
catalog-order entry lists below. -/

/-- Catalog-order asset entries of one release, starting from a given
counter value. -/
def assetEntries : List Asset → Int → List (String × IdOffset)
  | [], _ => []
  | a :: rest, off =>
      (a.name, IdOffset.mk (a.id + 1) (off + 1)) :: assetEntries rest (off + 1)

/-- Catalog-order release entries, starting from a given counter value. -/
def releaseEntries : List Release → Int → ReleaseMappings
  | [], _ => []
  | r :: rest, off =>
      (r.tag_name,
        ReleaseMapping.mk
          (IdOffset.mk (r.id + 1) (off + r.assets.length + 1))
          (assetEntries r.assets off))
        :: releaseEntries rest (off + r.assets.length + 1)

/-- Filesystem ids stored in one asset map. -/
def amIds (m : List (String × IdOffset)) : List Nat := m.map (fun p => p.2.id)

/-- Filesystem ids of all TAG and ASSET nodes of the tree, release by
release. -/
def treeIds (m : ReleaseMappings) : List Nat :=
  m.flatMap (fun p => p.2.id_offset.id :: amIds p.2.asset_mappings)

/-- Remote identifiers of the catalog, release by release. -/
def remoteIds (rels : List Release) : List Nat :=
  rels.flatMap (fun r => r.id :: r.assets.map Asset.id)


/-! Helper lemmas about the association-list model. -/

/-- Inserting a key that is not present appends the pair at the end. -/
theorem alInsert_fresh {α : Type} (k : String) (v : α) :
    ∀ m : List (String × α), k ∉ m.map Prod.fst → alInsert k v m = m ++ [(k, v)]
  | [], _ => rfl
  | p :: rest, h => by
      have h1 : ¬ (p.1 = k) := fun he => h (by simp [he])
      have h2 : k ∉ rest.map Prod.fst := fun hm => h (by simp [hm])
      simp [alInsert, h1, alInsert_fresh k v rest h2]

/-- Key membership after an insert. -/
theorem mem_keys_alInsert {α : Type} (a k : String) (v : α) :
    ∀ m : List (String × α),
      a ∈ (alInsert k v m).map Prod.fst ↔ a = k ∨ a ∈ m.map Prod.fst
  | [] => by simp [alInsert]
  | p :: rest => by
      by_cases hpk : p.1 = k
      · simp only [alInsert, if_pos hpk, List.map_cons, List.mem_cons]
        rw [hpk]
        tauto
      · simp only [alInsert, if_neg hpk, List.map_cons, List.mem_cons,
          mem_keys_alInsert a k v rest]
        tauto

/-- Insertion preserves key uniqueness. -/
theorem nodup_keys_alInsert {α : Type} (k : String) (v : α) :
    ∀ m : List (String × α),
      (m.map Prod.fst).Nodup → ((alInsert k v m).map Prod.fst).Nodup
  | [], _ => by simp [alInsert]
  | p :: rest, h => by
      have hrest : (rest.map Prod.fst).Nodup := (List.nodup_cons.mp (by simpa using h)).2
      have hnot : p.1 ∉ rest.map Prod.fst := (List.nodup_cons.mp (by simpa using h)).1
      by_cases hpk : p.1 = k
      · simp only [alInsert, if_pos hpk, List.map_cons, List.nodup_cons]
        exact ⟨hpk ▸ hnot, hrest⟩
      · simp only [alInsert, if_neg hpk, List.map_cons, List.nodup_cons]
        refine ⟨?_, nodup_keys_alInsert k v rest hrest⟩
        rw [mem_keys_alInsert]
        rintro (he | hm)
        · exact hpk he
        · exact hnot hm

/-- Retrieval after an insert at the same key yields the inserted value. -/
theorem alGet_alInsert_self {α : Type} (k : String) (v : α) :
    ∀ m : List (String × α), alGet (alInsert k v m) k = some v
  | [] => by simp [alInsert, alGet]
  | p :: rest => by
      by_cases hpk : p.1 = k
      · simp [alInsert, alGet, hpk]
      · have := alGet_alInsert_self k v rest
        simp only [alGet] at this
        simp [alInsert, alGet, hpk, this]

/-- With unique asset names, the inner builder loop appends the
catalog-order asset entries to its accumulator and advances the counter by
the number of assets. -/
theorem genAssetMappingsAux_eq :
    ∀ (assets : List Asset) (off : Int) (acc : List (String × IdOffset)),
      (assets.map Asset.name).Nodup →
      (∀ n ∈ assets.map Asset.name, n ∉ acc.map Prod.fst) →
      genAssetMappingsAux assets off acc =
        (acc ++ assetEntries assets off, off + assets.length)
  | [], off, acc, _, _ => by simp [genAssetMappingsAux, assetEntries]
  | a :: rest, off, acc, hnd, hfresh => by
      have h1 : a.name ∉ acc.map Prod.fst := hfresh a.name (by simp)
      rw [List.map_cons] at hnd
      have hc := List.nodup_cons.mp hnd
      have hfresh2 : ∀ n ∈ rest.map Asset.name,
          n ∉ (alInsert a.name (IdOffset.mk (a.id + 1) (off + 1)) acc).map Prod.fst := by
        intro n hn
        rw [mem_keys_alInsert]
        rintro (he | hm)
        · exact hc.1 (he ▸ hn)
        · exact hfresh n (by simp [hn]) hm
      rw [genAssetMappingsAux,
        genAssetMappingsAux_eq rest (off + 1) _ hc.2 hfresh2,
        alInsert_fresh _ _ _ h1]
      refine Prod.ext ?_ ?_
      · simp [assetEntries]
      · simp only [List.length_cons]
        push_cast
        omega

/-- With unique tag names and per-release unique asset names, the outer
builder loop appends the catalog-order release entries to its
accumulator. -/
theorem genReleaseMappingsAux_eq :
    ∀ (rels : List Release) (off : Int) (acc : ReleaseMappings),
      (rels.map Release.tag_name).Nodup →
      (∀ r ∈ rels, (r.assets.map Asset.name).Nodup) →
      (∀ t ∈ rels.map Release.tag_name, t ∉ acc.map Prod.fst) →
      genReleaseMappingsAux rels off acc = acc ++ releaseEntries rels off
  | [], off, acc, _, _, _ => by simp [genReleaseMappingsAux, releaseEntries]
  | r :: rest, off, acc, hnd, hassets, hfresh => by
      have h1 : r.tag_name ∉ acc.map Prod.fst := hfresh r.tag_name (by simp)
      rw [List.map_cons] at hnd
      have hc := List.nodup_cons.mp hnd
      have hinner := genAssetMappingsAux_eq r.assets off []
        (hassets r (by simp)) (by simp)
      have hfresh2 : ∀ t ∈ rest.map Release.tag_name,
          t ∉ (alInsert r.tag_name
            (ReleaseMapping.mk
              (IdOffset.mk (r.id + 1) ((genAssetMappingsAux r.assets off []).2 + 1))
              (genAssetMappingsAux r.assets off []).1) acc).map Prod.fst := by
        intro t ht
        rw [mem_keys_alInsert]
        rintro (he | hm)
        · exact hc.1 (he ▸ ht)
        · exact hfresh t (by simp [ht]) hm
      rw [genReleaseMappingsAux,
        genReleaseMappingsAux_eq rest _ _ hc.2 (fun a ha => hassets a (by simp [ha])) hfresh2,
        alInsert_fresh _ _ _ h1, hinner]
      simp [releaseEntries]

/-- Under unique names, the built tree is exactly the catalog-order entry
list starting at counter 0. -/
theorem generate_release_mappings_eq (rels : List Release)
    (h1 : (rels.map Release.tag_name).Nodup)
    (h2 : ∀ r ∈ rels, (r.assets.map Asset.name).Nodup) :
    generate_release_mappings rels = releaseEntries rels 0 := by
  rw [generate_release_mappings, genReleaseMappingsAux_eq rels 0 [] h1 h2 (by simp)]
  simp

/-- The asset ids recorded for one release are the remote asset ids, each
offset by one, in catalog order. -/
theorem amIds_assetEntries :
    ∀ (assets : List Asset) (off : Int),
      amIds (assetEntries assets off) = assets.map (fun a => a.id + 1)
  | [], _ => rfl
  | a :: rest, off => by
      have ih := amIds_assetEntries rest (off + 1)
      simp only [assetEntries, amIds, List.map_cons] at ih ⊢
      rw [ih]

/-- All node ids of the catalog-order tree are the remote ids, each offset
by one, in catalog order. -/
theorem treeIds_releaseEntries :
    ∀ (rels : List Release) (off : Int),
      treeIds (releaseEntries rels off) = (remoteIds rels).map (fun i => i + 1)
  | [], _ => rfl
  | r :: rest, off => by
      simp only [releaseEntries, treeIds, remoteIds, List.flatMap_cons, List.map_append,
        List.map_cons, List.map_map]
      have ht := treeIds_releaseEntries rest (off + r.assets.length + 1)
      simp only [treeIds, remoteIds] at ht
      rw [amIds_assetEntries, ht]
      simp [Function.comp]

/-! Claim theorems. -/

/-- C1: the claim says AttributesOf returns directory attributes for every
known TAG identifier and NotFound for every unknown identifier.  The code
does neither: getattr never consults the release mappings and answers
regular-file attributes for every inode other than 1.  In the sample tree
inode 10 is a known TAG, yet it receives regular-file attributes, and
inode 999 resolves to no node, yet it receives regular-file attributes
instead of NotFound. -/
theorem C1_getattr_code_bug_eval :
    (find_release_mapping sampleMappings 10).isSome ∧
    GhaFs.getattr 10 = AttrReply.attr (create_file_attr 10) ∧
    (create_file_attr 10).kind = FileType.RegularFile ∧
    GhaFs.getattr 10 ≠ AttrReply.attr (create_dir_attr 10) ∧
    find_release_mapping sampleMappings 999 = none ∧
    GhaFs.getattr 999 = AttrReply.attr (create_file_attr 999) ∧
    GhaFs.getattr 999 ≠ AttrReply.error ENOENT := by decide

/-- C2: the claim says lookup under a TAG searches the asset-name map and
returns the ASSET's own identifier.  In the sample tree the TAG v1.0 has
filesystem id 10 and its ASSET app.bin has filesystem id 5, yet
lookup(10, app.bin) replies with the TAG's own id 10 (as a regular file):
the non-root branch never consults the asset-name map. -/
theorem C2_lookup_code_bug_eval :
    find_release_mapping sampleMappings 10 = some sampleRM ∧
    alGet sampleRM.asset_mappings "app.bin" = some (IdOffset.mk 5 1) ∧
    GhaFs.lookup sampleMappings 10 "app.bin" = LookupReply.entry (create_file_attr 10) ∧
    (create_file_attr 10).ino = 10 ∧
    GhaFs.lookup sampleMappings 10 "app.bin" ≠ LookupReply.entry (create_file_attr 5) := by
  decide

/-- C3: the claim says a read offset at or beyond the content length
returns an empty result without error or abort.  At the length (13 for
inode 2) the code indeed returns an empty slice, but one byte beyond it
the slice expression panics, aborting instead of returning empty. -/
theorem C3_read_code_bug_eval :
    (readContent 2).length = 13 ∧
    GhaFs.read 2 13 = ReadReply.data [] ∧
    GhaFs.read 2 14 = ReadReply.panic := by decide

/-- C5 counterexample: the claim says ReadFile yields NotFound for every
known TAG identifier and every unknown identifier.  In the sample tree
inode 10 is a known TAG and inode 999 is unknown, and read serves
placeholder content for both instead of NotFound (only inode 1 gets
NotFound). -/
theorem C5_read_counterexample :
    find_release_mapping sampleMappings 10 = some sampleRM ∧
    GhaFs.read 10 0 = ReadReply.data ("HelloWorld-10\n".data) ∧
    GhaFs.read 10 0 ≠ ReadReply.error ENOENT ∧
    find_release_mapping sampleMappings 999 = none ∧
    GhaFs.read 999 0 ≠ ReadReply.error ENOENT ∧
    GhaFs.read 1 0 = ReadReply.error ENOENT := by decide

/-- C5 amended: read yields NotFound exactly for inode 1 (ROOT); every
other inode — ASSET, TAG or unknown alike — is never answered NotFound
(it gets placeholder data, or a panic when the offset exceeds the content
length).  The NotFound reply itself is a normal errno reply, not a
crash. -/
theorem C5_read_amended (ino : Nat) (offset : Int) :
    (ino = 1 → GhaFs.read ino offset = ReadReply.error ENOENT) ∧
    (ino ≠ 1 → GhaFs.read ino offset ≠ ReadReply.error ENOENT) := by
  constructor
  · intro h
    simp [GhaFs.read, h]
  · intro h
    unfold GhaFs.read
    rw [if_pos h]
    simp only []
    split <;> simp

/-- Witness for the amended C5 statement at inode 1 and at inode 5. -/
theorem C5_read_amended_witness :
    ((1 : Nat) = 1 ∧ GhaFs.read 1 0 = ReadReply.error ENOENT) ∧
    ((5 : Nat) ≠ 1 ∧ GhaFs.read 5 0 ≠ ReadReply.error ENOENT) :=
  ⟨⟨rfl, (C5_read_amended 1 0).1 rfl⟩,
   ⟨by decide, (C5_read_amended 5 0).2 (by decide)⟩⟩

/-- C9 counterexample: the claim says the placeholder content always fits
the declared size.  In the tree built from wideIdCatalog the asset big.bin
receives filesystem id 10, whose placeholder content is 14 bytes against
the declared size 13. -/
theorem C9_size_counterexample :
    wideIdMappings =
      [("v3.0", ReleaseMapping.mk (IdOffset.mk 21 2) [("big.bin", IdOffset.mk 10 1)])] ∧
    (create_file_attr 10).size = 13 ∧
    (readContent 10).length = 14 ∧
    GhaFs.read 10 0 = ReadReply.data ("HelloWorld-10\n".data) ∧
    ¬ (readContent 10).length ≤ (create_file_attr 10).size := by decide

/-- C9 amended: every inode's regular-file attributes declare the fixed
positive size 13, and the placeholder content has length 12 plus the
decimal-digit count of the inode, so it fits the declared size exactly
when the inode has a single decimal digit (inode at most 9) and exceeds it
otherwise (witnessed at inode 10 in the counterexample). -/
theorem C9_size_amended (ino : Nat) :
    (create_file_attr ino).size = 13 ∧
    0 < (create_file_attr ino).size ∧
    (readContent ino).length = 12 + (Nat.repr ino).length ∧
    (ino ≤ 9 → (readContent ino).length = 13) := by
  have hlen : (readContent ino).length = 12 + (Nat.repr ino).length := by
    have h10 : ("HelloWorld" : String).length = 10 := rfl
    have h11 : ("HelloWorld-" : String).length = 11 := rfl
    have hd : ("-" : String).length = 1 := rfl
    have hn : ("\n" : String).length = 1 := rfl
    have hts : (toString ino).length = (Nat.repr ino).length := rfl
    simp [readContent, HELLO_TXT_CONTENT, String.length_append, h10, h11, hd, hn, hts]
    omega
  refine ⟨rfl, by simp [create_file_attr], hlen, ?_⟩
  intro h9
  rw [hlen]
  interval_cases ino <;> decide

/-- Witness for the amended C9 statement at inode 7. -/
theorem C9_size_amended_witness :
    (7 : Nat) ≤ 9 ∧ (create_file_attr 7).size = 13 ∧ (readContent 7).length = 13 :=
  ⟨by decide, (C9_size_amended 7).1, (C9_size_amended 7).2.2.2 (by decide)⟩

/-- C4 counterexample: the claim says the ROOT listing starts with the dot
and dotdot entries and that an unknown identifier yields NotFound.  In the
sample tree the ROOT listing is the TAG first and the dot entries last
(so the claimed sequence is not produced), and the unknown inode 999 is
answered with a successful empty listing, not an error. -/
theorem C4_readdir_counterexample :
    GhaFs.readdir sampleMappings 1 0 = ReaddirReply.ok
      [(IdOffset.mk 10 2, FileType.Directory, "v1.0"),
       (IdOffset.mk 1 1, FileType.Directory, "."),
       (IdOffset.mk 1 1, FileType.Directory, "..")] ∧
    GhaFs.readdir sampleMappings 1 0 ≠ ReaddirReply.ok
      [(IdOffset.mk 1 1, FileType.Directory, "."),
       (IdOffset.mk 1 1, FileType.Directory, ".."),
       (IdOffset.mk 10 2, FileType.Directory, "v1.0")] ∧
    find_release_mapping sampleMappings 999 = none ∧
    GhaFs.readdir sampleMappings 999 0 = ReaddirReply.ok [] ∧
    GhaFs.readdir sampleMappings 999 0 ≠ ReaddirReply.error ENOENT := by decide

/-- Tag-key membership of the built tree: a name is a key of the outer
loop's result exactly when it is a key of the accumulator or a tag name of
the remaining catalog. -/
theorem mem_keys_genReleaseMappingsAux (a : String) :
    ∀ (rels : List Release) (off : Int) (acc : ReleaseMappings),
      a ∈ (genReleaseMappingsAux rels off acc).map Prod.fst ↔
        a ∈ acc.map Prod.fst ∨ a ∈ rels.map Release.tag_name
  | [], off, acc => by simp [genReleaseMappingsAux]
  | r :: rest, off, acc => by
      rw [genReleaseMappingsAux, mem_keys_genReleaseMappingsAux a rest _ _,
        mem_keys_alInsert]
      simp only [List.map_cons, List.mem_cons]
      tauto

/-- The tag keys of the built tree never repeat, whatever the catalog. -/
theorem nodup_keys_genReleaseMappingsAux :
    ∀ (rels : List Release) (off : Int) (acc : ReleaseMappings),
      (acc.map Prod.fst).Nodup →
      ((genReleaseMappingsAux rels off acc).map Prod.fst).Nodup
  | [], off, acc, h => by simpa [genReleaseMappingsAux] using h
  | r :: rest, off, acc, h => by
      rw [genReleaseMappingsAux]
      exact nodup_keys_genReleaseMappingsAux rest _ _
        (nodup_keys_alInsert _ _ acc h)

/-- C4 amended: the ROOT listing is every TAG entry (one per stored tag
name, with no duplicates and no omissions relative to the catalog's tag
names) followed by dot (self) and dotdot (self); the listing of a known
TAG identifier is its ASSET entries followed by dot (self) and dotdot
(id 1, ROOT); an identifier that is neither ROOT nor a known TAG is
answered with a successful empty listing rather than NotFound. -/
theorem C4_readdir_amended (rels : List Release) (ino : Nat) (rm : ReleaseMapping) :
    (GhaFs.readdir (generate_release_mappings rels) 1 0 = ReaddirReply.ok
      (((generate_release_mappings rels).map
          (fun p => ((p.2.id_offset, FileType.Directory, p.1) : DirEntry)))
        ++ [(IdOffset.mk 1 1, FileType.Directory, "."),
            (IdOffset.mk 1 1, FileType.Directory, "..")])) ∧
    ((generate_release_mappings rels).map Prod.fst).Nodup ∧
    (∀ t, t ∈ (generate_release_mappings rels).map Prod.fst ↔
        t ∈ rels.map Release.tag_name) ∧
    (ino ≠ 1 → find_release_mapping (generate_release_mappings rels) ino = some rm →
      GhaFs.readdir (generate_release_mappings rels) ino 0 = ReaddirReply.ok
        ((rm.asset_mappings.map
            (fun p => ((p.2, FileType.RegularFile, p.1) : DirEntry)))
          ++ [(IdOffset.mk ino rm.id_offset.offset, FileType.Directory, "."),
              (IdOffset.mk 1 1, FileType.Directory, "..")])) ∧
    (ino ≠ 1 → find_release_mapping (generate_release_mappings rels) ino = none →
      GhaFs.readdir (generate_release_mappings rels) ino 0 = ReaddirReply.ok []) := by
  have hdrop : ∀ l : List DirEntry, l.drop (i64ToUsize 0) = l := by
    intro l
    have h0 : i64ToUsize 0 = 0 := rfl
    rw [h0, List.drop_zero]
  refine ⟨?_, ?_, ?_, ?_, ?_⟩
  · rw [GhaFs.readdir, hdrop, GhaFs.readdirEntries, if_pos rfl]
  · exact nodup_keys_genReleaseMappingsAux rels 0 [] (by simp)
  · intro t
    rw [generate_release_mappings, mem_keys_genReleaseMappingsAux]
    simp
  · intro hino hfind
    rw [GhaFs.readdir, hdrop, GhaFs.readdirEntries, if_neg hino, hfind]
  · intro hino hfind
    rw [GhaFs.readdir, hdrop, GhaFs.readdirEntries, if_neg hino, hfind]

/-- Witness for the amended C4 statement: the TAG listing and the
empty-listing branch at concrete inputs of the sample tree. -/
theorem C4_readdir_amended_witness :
    ((10 : Nat) ≠ 1 ∧
      find_release_mapping sampleMappings 10 = some sampleRM ∧
      GhaFs.readdir sampleMappings 10 0 = ReaddirReply.ok
        [(IdOffset.mk 5 1, FileType.RegularFile, "app.bin"),
         (IdOffset.mk 10 2, FileType.Directory, "."),
         (IdOffset.mk 1 1, FileType.Directory, "..")]) ∧
    ((999 : Nat) ≠ 1 ∧
      find_release_mapping sampleMappings 999 = none ∧
      GhaFs.readdir sampleMappings 999 0 = ReaddirReply.ok []) :=
  ⟨⟨by decide, by decide,
      (C4_readdir_amended sampleCatalog 10 sampleRM).2.2.2.1 (by decide) (by decide)⟩,
   ⟨by decide, by decide,
      (C4_readdir_amended sampleCatalog 999 sampleRM).2.2.2.2 (by decide) (by decide)⟩⟩

/-- C6 counterexample: the claim says every catalog's tree has pairwise
distinct node identifiers derived from a never-repeating counter.  The
identifiers are in fact the remote ids offset by one, and in the tree
built from collidingCatalog the TAG (remote id 5) and its ASSET (remote
id 5) both receive filesystem id 6, so two distinct nodes share an id. -/
theorem C6_id_collision_counterexample :
    generate_release_mappings collidingCatalog =
      [("v2.0", ReleaseMapping.mk (IdOffset.mk 6 2) [("x.bin", IdOffset.mk 6 1)])] ∧
    treeIds (generate_release_mappings collidingCatalog) = [6, 6] ∧
    ¬ (1 :: treeIds (generate_release_mappings collidingCatalog)).Nodup := by decide

/-- C6 amended: TAG and ASSET filesystem identifiers are the remote
identifiers offset by one (the never-repeating counter feeds only the
directory-listing offset field, not the identifier); consequently, when
the catalog's tag names are unique, its asset names are unique within each
release, and all remote identifiers are pairwise distinct and positive,
no two nodes of the built tree share an identifier and the value 1 denotes
only ROOT. -/
theorem C6_ids_amended (rels : List Release)
    (h1 : (rels.map Release.tag_name).Nodup)
    (h2 : ∀ r ∈ rels, (r.assets.map Asset.name).Nodup)
    (h3 : (remoteIds rels).Nodup)
    (h4 : ∀ i ∈ remoteIds rels, 0 < i) :
    treeIds (generate_release_mappings rels) =
      (remoteIds rels).map (fun i => i + 1) ∧
    (1 :: treeIds (generate_release_mappings rels)).Nodup := by
  rw [generate_release_mappings_eq rels h1 h2, treeIds_releaseEntries]
  refine ⟨rfl, List.nodup_cons.mpr ⟨?_, ?_⟩⟩
  · intro hmem
    obtain ⟨i, hi, he⟩ := List.mem_map.mp hmem
    have := h4 i hi
    omega
  · exact h3.map (fun a b hab => by omega)

/-- Witness for the amended C6 statement on a two-release catalog with
distinct positive remote ids. -/
theorem C6_ids_amended_witness :
    ((disjointCatalog.map Release.tag_name).Nodup ∧
      (∀ r ∈ disjointCatalog, (r.assets.map Asset.name).Nodup) ∧
      (remoteIds disjointCatalog).Nodup ∧
      (∀ i ∈ remoteIds disjointCatalog, 0 < i)) ∧
    treeIds (generate_release_mappings disjointCatalog) =
      (remoteIds disjointCatalog).map (fun i => i + 1) ∧
    (1 :: treeIds (generate_release_mappings disjointCatalog)).Nodup :=
  ⟨⟨by decide, by decide, by decide, by decide⟩,
   C6_ids_amended disjointCatalog (by decide) (by decide) (by decide) (by decide)⟩

/-- C7: paging over a fixed tree snapshot.  For every directory identifier
and every continuation count k representable as a valid i64 offset,
requesting the listing at offset k delivers exactly the suffix after the
first k entries of the full listing produced at offset 0; the handler is a
pure function of the tree, so repeated calls with the same pair always
yield that same suffix. -/
theorem C7_readdir_paging (release_mappings : ReleaseMappings) (ino : Nat)
    (k : Nat) (hk : k < 9223372036854775808) (l : List DirEntry)
    (h : GhaFs.readdir release_mappings ino 0 = ReaddirReply.ok l) :
    GhaFs.readdir release_mappings ino (k : Int) = ReaddirReply.ok (l.drop k) := by
  have hkk : i64ToUsize (k : Int) = k := by
    unfold i64ToUsize
    omega
  have h0 : i64ToUsize 0 = 0 := rfl
  rw [GhaFs.readdir, h0, List.drop_zero] at h
  rw [GhaFs.readdir, hkk]
  injection h with h
  rw [h]

/-- Witness for the C7 paging statement at the sample tree's root with two
entries already delivered. -/
theorem C7_readdir_paging_witness :
    (2 : Nat) < 9223372036854775808 ∧
    GhaFs.readdir sampleMappings 1 0 = ReaddirReply.ok
      [(IdOffset.mk 10 2, FileType.Directory, "v1.0"),
       (IdOffset.mk 1 1, FileType.Directory, "."),
       (IdOffset.mk 1 1, FileType.Directory, "..")] ∧
    GhaFs.readdir sampleMappings 1 ((2 : Nat) : Int) = ReaddirReply.ok
      ([(IdOffset.mk 10 2, FileType.Directory, "v1.0"),
        (IdOffset.mk 1 1, FileType.Directory, "."),
        (IdOffset.mk 1 1, FileType.Directory, "..")].drop 2) :=
  ⟨by decide, by decide,
   C7_readdir_paging sampleMappings 1 2 (by decide) _ (by decide)⟩

/-- C10: lookup with a non-root parent that is the identifier of some
release mapping succeeds for every child name whatsoever, carrying that
release's own identifier with regular-file kind; the reply does not depend
on the name. -/
theorem C10_lookup_nonroot (release_mappings : ReleaseMappings) (p : Nat)
    (n : String) (hp : p ≠ 1)
    (h : (find_release_mapping release_mappings p).isSome) :
    GhaFs.lookup release_mappings p n = LookupReply.entry (create_file_attr p) ∧
    (create_file_attr p).kind = FileType.RegularFile ∧
    (create_file_attr p).ino = p := by
  obtain ⟨rm, hrm⟩ := Option.isSome_iff_exists.mp h
  have hid : rm.id_offset.id = p := by
    rw [find_release_mapping] at hrm
    have hpred := List.find?_some hrm
    simpa using hpred
  refine ⟨?_, rfl, rfl⟩
  rw [GhaFs.lookup, if_neg hp, hrm]
  simp only [hid]

/-- Witness for C10 at the sample tree's TAG id 10 with a name that names
no asset of that release. -/
theorem C10_lookup_nonroot_witness :
    ((10 : Nat) ≠ 1 ∧ (find_release_mapping sampleMappings 10).isSome) ∧
    GhaFs.lookup sampleMappings 10 "no-such-asset" =
      LookupReply.entry (create_file_attr 10) :=
  ⟨⟨by decide, by decide⟩,
   (C10_lookup_nonroot sampleMappings 10 "no-such-asset" (by decide) (by decide)).1⟩

/-- C8: the fetch mutates the per-endpoint validator cache only on a fresh
(200) response carrying a validator, storing (validator, decoded body)
under the endpoint and evicting any prior entry for it; when the validator
is absent, when the body fails to decode, on an unchanged (304) response
and on any other status the cache is left untouched, and the 304 case is
answered from the cached body. -/
theorem C8_cache_frame (st : GitHubState) (endpoint : String) (rsp : Response) :
    (∀ b h, rsp = Response.mk StatusCode.ok (some b) (some h) →
      cached_get st endpoint rsp =
        (FetchResult.ok b,
         GitHubState.mk (alInsert endpoint (EtagCache.mk h b) st.etags)) ∧
      alGet (cached_get st endpoint rsp).2.etags endpoint =
        some (EtagCache.mk h b)) ∧
    (rsp.etag = none → (cached_get st endpoint rsp).2 = st) ∧
    (rsp.body = none → (cached_get st endpoint rsp).2 = st) ∧
    (rsp.status = StatusCode.notModified → (cached_get st endpoint rsp).2 = st ∧
      ∀ c, alGet st.etags endpoint = some c →
        (cached_get st endpoint rsp).1 = FetchResult.ok c.content) ∧
    (rsp.status = StatusCode.other → (cached_get st endpoint rsp).2 = st) := by
  obtain ⟨status, body, etag⟩ := rsp
  refine ⟨?_, ?_, ?_, ?_, ?_⟩
  · rintro b h ⟨rfl, rfl, rfl⟩
    exact ⟨rfl, alGet_alInsert_self endpoint (EtagCache.mk h b) st.etags⟩
  · rintro rfl
    cases status <;> cases body <;> simp [cached_get] <;>
      cases halg : alGet st.etags endpoint <;> simp [halg]
  · rintro rfl
    cases status <;> cases etag <;> simp [cached_get] <;>
      cases halg : alGet st.etags endpoint <;> simp [halg]
  · rintro rfl
    simp only [cached_get]
    cases halg : alGet st.etags endpoint <;> simp [halg]
  · rintro rfl
    simp [cached_get]

/-- Witness for C8: a fresh response with a validator replaces the cached
entry for the endpoint, and an unchanged response is answered from the
cache without touching it. -/
theorem C8_cache_frame_witness :
    (cached_get (GitHubState.mk [("repos/o/r/releases", EtagCache.mk "h0" "body0")])
        "repos/o/r/releases" (Response.mk StatusCode.ok (some "body1") (some "h1")) =
      (FetchResult.ok "body1",
       GitHubState.mk [("repos/o/r/releases", EtagCache.mk "h1" "body1")])) ∧
    ((cached_get (GitHubState.mk [("repos/o/r/releases", EtagCache.mk "h0" "body0")])
        "repos/o/r/releases" (Response.mk StatusCode.notModified none none)).2 =
      GitHubState.mk [("repos/o/r/releases", EtagCache.mk "h0" "body0")] ∧
     (cached_get (GitHubState.mk [("repos/o/r/releases", EtagCache.mk "h0" "body0")])
        "repos/o/r/releases" (Response.mk StatusCode.notModified none none)).1 =
      FetchResult.ok "body0") := by
  refine ⟨?_, ?_, ?_⟩
  · have h := (C8_cache_frame
      (GitHubState.mk [("repos/o/r/releases", EtagCache.mk "h0" "body0")])
      "repos/o/r/releases"
      (Response.mk StatusCode.ok (some "body1") (some "h1"))).1
      "body1" "h1" rfl
    rw [h.1]
    decide
  · exact ((C8_cache_frame
      (GitHubState.mk [("repos/o/r/releases", EtagCache.mk "h0" "body0")])
      "repos/o/r/releases"
      (Response.mk StatusCode.notModified none none)).2.2.2.1 rfl).1
  · exact ((C8_cache_frame
      (GitHubState.mk [("repos/o/r/releases", EtagCache.mk "h0" "body0")])
      "repos/o/r/releases"
      (Response.mk StatusCode.notModified none none)).2.2.2.1 rfl).2
      (EtagCache.mk "h0" "body0") (by decide)
